import Mathlib

/-!
Shallow embedding of the pygmyapp/rest session/authentication subsystem and
friend-relationship state machine, transcribed from the TypeScript source
(`src/handlers/session.ts` = part_003, `src/handlers/ipc.ts` variant = part_002,
`src/routes/user.ts`, `src/routes/session.ts`).

Strings from the HTTP layer that get split on spaces (the `Authorization`
header) are modelled as `List Char` so that the JavaScript
`header.split(' ')` destructuring can be reproduced exactly and remains
kernel-computable.  Database tables are lists of rows; `findUnique` /
`findFirst` become `List.find?`, `delete` becomes `List.filter`, `update`
becomes `List.map` guarded on the row key.  Timestamps are integers
(milliseconds); `weekAgo.setDate(now.getDate() - 14)` becomes
`now - fourteenDays`.
-/

namespace PygmyRest

/-- The error-message constants of `src/constants.ts` (`Errors`), one
constructor per string constant. -/
inductive ApiError
  | ServerError
  | EmailAlreadyInUse
  | UsernameAlreadyInUse
  | UserNotFound
  | CurrentPasswordRequired
  | PasswordNotChanged
  | InvalidPassword
  | InvalidEmailOrPassword
  | MissingAuthHeader
  | InvalidToken
  | InvalidTokenType
  | ExpiredToken
  | SessionNotFound
  | FriendNotFound
  | CannotSendRequestToSelf
  | RequestNotFound
  | RequestAlreadySent
  deriving DecidableEq, Repr

/-- A row of the `sessions` table: `id PK, userId, lastUse timestamp`. -/
structure Session where
  id : String
  userId : String
  lastUse : Int
  deriving DecidableEq, Repr

/-- The `sessions` table. -/
abbrev SessionStore := List Session

/-- 14 days in milliseconds; the idle-expiry window computed by
`weekAgo.setDate(now.getDate() - 14)` in both auth call sites. -/
def fourteenDays : Int := 14 * 24 * 60 * 60 * 1000

/-- `prisma.session.findUnique({ where: { id } })`. -/
def findSession (store : SessionStore) (id : String) : Option Session :=
  store.find? (fun s => s.id = id)

/-- `prisma.session.delete({ where: { id } })`. -/
def deleteSession (store : SessionStore) (id : String) : SessionStore :=
  store.filter (fun s => s.id ≠ id)

/-- `prisma.session.update({ where: { id }, data: { lastUse: new Date() } })`. -/
def touchSession (store : SessionStore) (id : String) (now : Int) : SessionStore :=
  store.map (fun s => if s.id = id then { s with lastUse := now } else s)

/-- A raw token / header string, as a character list. -/
abbrev Token := List Char

/-- The claims `validateToken` extracts from a verified JWT:
`{ sessionId, userId }`. -/
structure TokenPayload where
  sessionId : String
  userId : String
  deriving DecidableEq, Repr

/-- JavaScript `s.split(' ')` helper: returns (current segment, later
segments), processing the string from the left. -/
def splitSp : List Char → List Char × List (List Char)
  | [] => ([], [])
  | c :: rest =>
    let r := splitSp rest
    if c = ' ' then ([], r.1 :: r.2) else (c :: r.1, r.2)

/-- JavaScript `s.split(' ')`: split on every single space, keeping empty
segments (so the result is never empty). -/
def jsSplit (s : List Char) : List (List Char) :=
  (splitSp s).1 :: (splitSp s).2

/-- The characters of the literal scheme word `Bearer`. -/
def bearerWord : List Char := ['B', 'e', 'a', 'r', 'e', 'r']

/-- `"Bearer " + token`: the well-formed Authorization header carrying a
token. -/
def bearerHeader (t : Token) : Token := bearerWord ++ (' ' :: t)

/-- Outcome of the HTTP auth middleware: a 401 JSON error, or the
`sessionId`/`userId` context variables set before `next()`. -/
inductive AuthOutcome
  | err (e : ApiError)
  | ok (sessionId userId : String)
  deriving DecidableEq, Repr

/-- `authMiddleware` from `src/handlers/session.ts` (part_003 lines 62-123),
parameterised by the token-verification function (`validateToken`, whose
HS256 cryptography is opaque here).  `header` is
`c.req.header('Authorization')` (`none` when absent).  Returns the HTTP
outcome paired with the resulting session store. -/
def authMiddleware (validateToken : Token → Option TokenPayload)
    (header : Option Token) (store : SessionStore) (now : Int) :
    AuthOutcome × SessionStore :=
  match header with
  | none => (.err .InvalidToken, store)
  | some h =>
    if h = [] then (.err .InvalidToken, store)
    else
      match jsSplit h with
      | [ty, tok] =>
        if ty = [] ∨ tok = [] then (.err .InvalidToken, store)
        else if ty ≠ bearerWord then (.err .InvalidTokenType, store)
        else
          match validateToken tok with
          | none => (.err .InvalidToken, store)
          | some payload =>
            match findSession store payload.sessionId with
            | none => (.err .ExpiredToken, store)
            | some session =>
              if session.lastUse < now - fourteenDays then
                (.err .ExpiredToken, deleteSession store payload.sessionId)
              else
                (.ok session.id session.userId,
                  touchSession store payload.sessionId now)
      | _ => (.err .InvalidToken, store)

/-- The `VERIFY_TOKEN` reply: `{ valid, userId }` (the echoed `token` and
`action` fields are constant per call and omitted). -/
structure VerifyResponse where
  valid : Bool
  userId : Option String
  deriving DecidableEq, Repr

/-- The relay `VERIFY_TOKEN` request handler (part_002 lines 27-98),
transcribed independently of `authMiddleware`: it receives the raw token in
the message payload, runs `validateToken`, checks/expires/touches the
session, and replies `valid`/`userId`. -/
def verifyTokenRPC (validateToken : Token → Option TokenPayload)
    (token : Token) (store : SessionStore) (now : Int) :
    VerifyResponse × SessionStore :=
  match validateToken token with
  | none => (⟨false, none⟩, store)
  | some payload =>
    match findSession store payload.sessionId with
    | none => (⟨false, none⟩, store)
    | some session =>
      if session.lastUse < now - fourteenDays then
        (⟨false, none⟩, deleteSession store payload.sessionId)
      else
        (⟨true, some session.userId⟩, touchSession store payload.sessionId now)

/-- A row of the `users` table as seen by the friend routes: id, unique
username, and the `friends` self-relation projected to ids
(`include: { friends: { select: { id: true } } }`). -/
structure User where
  id : String
  username : String
  friends : List String
  deriving DecidableEq, Repr

/-- A row of the `friend_requests` table:
`id PK, type, fromUserId, toUserId`. -/
structure FriendRequest where
  id : String
  reqType : String
  fromUserId : String
  toUserId : String
  deriving DecidableEq, Repr

/-- The database state the relationship routes touch. -/
structure DB where
  users : List User
  requests : List FriendRequest
  deriving DecidableEq, Repr

/-- The `direction` field of request events. -/
inductive Direction
  | OUTGOING
  | INCOMING
  deriving DecidableEq, Repr

/-- An outbound `ipc.send('gateway', { type: 'event', ... })` envelope. -/
inductive GatewayEvent
  | REQUEST_CREATE (client fromUser toUser : String) (direction : Direction)
  | REQUEST_DELETE (client fromUser toUser : String) (direction : Direction)
  | FRIEND_CREATE (client userId : String)
  | FRIEND_DELETE (client userId : String)
  deriving DecidableEq, Repr

/-- Outcome of a relationship route handler: the error returned (if any),
the database afterwards, and the gateway events emitted, in order. -/
structure RouteResult where
  error? : Option ApiError
  db : DB
  events : List GatewayEvent
  deriving DecidableEq, Repr

/-- `prisma.user.update({ where: { id: ownerId }, data: { friends:
{ connect: { id: friendId } } } })`: the owner's friend list gains
`friendId` (connect is a no-op when already connected). -/
def connectFriend (db : DB) (ownerId friendId : String) : DB :=
  { db with
    users := db.users.map (fun u =>
      if u.id = ownerId then { u with friends := u.friends.insert friendId }
      else u) }

/-- `prisma.user.update({ ... data: { friends: { disconnect: { id:
friendId } } } })`: the owner's friend list loses `friendId`. -/
def disconnectFriend (db : DB) (ownerId friendId : String) : DB :=
  { db with
    users := db.users.map (fun u =>
      if u.id = ownerId then
        { u with friends := u.friends.filter (fun f => f ≠ friendId) }
      else u) }

/-- `prisma.request.delete({ where: { id } })`. -/
def deleteRequest (db : DB) (id : String) : DB :=
  { db with requests := db.requests.filter (fun r => r.id ≠ id) }

/-- `POST /@me/requests` (`src/routes/user.ts` lines 488-587): send a friend
request from the authenticated user to the user named `username`.  `newId`
stands for the `generateSnowflake()` id of the created row. -/
def createRequest (db : DB) (authUserId username newId : String) : RouteResult :=
  match db.users.find? (fun u => u.username = username) with
  | none => ⟨some .UserNotFound, db, []⟩
  | some receiver =>
    if receiver.id = authUserId then ⟨some .CannotSendRequestToSelf, db, []⟩
    else
      match db.requests.find? (fun r =>
          (r.fromUserId = authUserId ∧ r.toUserId = receiver.id) ∨
          (r.fromUserId = receiver.id ∧ r.toUserId = authUserId)) with
      | some _ => ⟨some .RequestAlreadySent, db, []⟩
      | none =>
        ⟨none,
          { db with requests :=
              db.requests ++ [⟨newId, "FRIEND_REQUEST", authUserId, receiver.id⟩] },
          [.REQUEST_CREATE authUserId authUserId receiver.id .OUTGOING,
           .REQUEST_CREATE receiver.id authUserId receiver.id .INCOMING]⟩

/-- `PATCH /@me/requests/:userId` (`src/routes/user.ts` lines 591-698):
accept/ignore a friend request.  The handler looks the request up with
`prisma.request.findFirst({ where: { fromUserId: userId } })` — only the
`fromUserId` filter appears in the source.  (The `prisma.user.update`
calls would throw on a missing user id; the claims only exercise states
where both users exist.) -/
def respondRequest (db : DB) (authUserId userId : String) (accept : Bool) :
    RouteResult :=
  match db.requests.find? (fun r => r.fromUserId = userId) with
  | none => ⟨some .RequestNotFound, db, []⟩
  | some request =>
    let db1 :=
      if accept then connectFriend (connectFriend db userId authUserId) authUserId userId
      else db
    let db2 := deleteRequest db1 request.id
    ⟨none, db2,
      [.REQUEST_DELETE authUserId userId authUserId .INCOMING,
       .REQUEST_DELETE userId userId authUserId .OUTGOING] ++
      (if accept then
        [.FRIEND_CREATE authUserId userId, .FRIEND_CREATE userId authUserId]
      else [])⟩

/-- `DELETE /@me/requests/:userId` (`src/routes/user.ts` lines 702-748):
cancel an outgoing friend request.  The handler looks the request up with
`prisma.request.findFirst({ where: { toUserId: userId } })` — only the
`toUserId` filter appears in the source. -/
def cancelRequest (db : DB) (authUserId userId : String) : RouteResult :=
  match db.requests.find? (fun r => r.toUserId = userId) with
  | none => ⟨some .RequestNotFound, db, []⟩
  | some request =>
    ⟨none, deleteRequest db request.id,
      [.REQUEST_DELETE authUserId authUserId userId .OUTGOING,
       .REQUEST_DELETE userId authUserId userId .INCOMING]⟩

/-- `DELETE /@me/friends/:userId` (`src/routes/user.ts` lines 357-438):
remove a friend.  Checks both users exist and that the friendship is
present on both sides, then disconnects both sides and emits two
`FRIEND_DELETE` events. -/
def unfriend (db : DB) (authUserId userId : String) : RouteResult :=
  match db.users.find? (fun u => u.id = authUserId),
        db.users.find? (fun u => u.id = userId) with
  | some user, some friend =>
    if userId ∈ user.friends ∧ authUserId ∈ friend.friends then
      ⟨none,
        disconnectFriend (disconnectFriend db authUserId userId) userId authUserId,
        [.FRIEND_DELETE authUserId userId, .FRIEND_DELETE userId authUserId]⟩
    else ⟨some .FriendNotFound, db, []⟩
  | _, _ => ⟨some .FriendNotFound, db, []⟩

/-- `DELETE /sessions/:sessionId` (`src/routes/session.ts` lines 150-188,
identically part_005 lines 510-548): look the session up by id; absent ⇒
404 `SessionNotFound`; otherwise delete it and return 204.  The
authenticated caller (`authUserId`) is in scope from `authMiddleware` but
the handler never consults it. -/
def deleteSessionRoute (store : SessionStore) (authUserId sessionId : String) :
    Option ApiError × SessionStore :=
  match findSession store sessionId with
  | none => (some .SessionNotFound, store)
  | some _ => (none, deleteSession store sessionId)

/-! ### Helper lemmas -/

/-- `find?` commutes with a row update that preserves the search predicate. -/
theorem find?_map_pres {α : Type} (l : List α) (p : α → Bool) (f : α → α)
    (hf : ∀ x, p (f x) = p x) :
    (l.map f).find? p = (l.find? p).map f := by
  rw [List.find?_map]
  have hpf : p ∘ f = p := funext hf
  rw [hpf]

/-- Splitting a space-free string on spaces leaves it whole. -/
theorem splitSp_no_space (t : List Char) (h : ' ' ∉ t) : splitSp t = (t, []) := by
  induction t with
  | nil => rfl
  | cons c rest ih =>
    have hc : c ≠ ' ' := fun hceq => h (hceq ▸ List.mem_cons_self c rest)
    have hrest : ' ' ∉ rest := fun hm => h (List.mem_cons_of_mem c hm)
    simp [splitSp, ih hrest, hc]

/-- A well-formed `Bearer` header splits into exactly the scheme word and the
token, provided the token contains no space. -/
theorem jsSplit_bearerHeader (t : Token) (h : ' ' ∉ t) :
    jsSplit (bearerHeader t) = [bearerWord, t] := by
  have h1 : splitSp t = (t, []) := splitSp_no_space t h
  simp [jsSplit, bearerHeader, bearerWord, splitSp, h1]

/-! ### C9: per-session logout does not check ownership -/

/-- C9: `DELETE /sessions/:sessionId` ignores the authenticated caller
entirely: its result is the same for any two callers; it returns
`SessionNotFound` exactly when no session with that id exists; and whenever
some session with that id exists — whoever owns it — it deletes it and
succeeds, leaving no session with that id behind. -/
theorem deleteSessionRoute_no_ownership_check
    (store : SessionStore) (a b sid : String) :
    deleteSessionRoute store a sid = deleteSessionRoute store b sid ∧
    (findSession store sid = none →
      deleteSessionRoute store a sid = (some .SessionNotFound, store)) ∧
    (∀ s, findSession store sid = some s →
      deleteSessionRoute store a sid = (none, deleteSession store sid) ∧
      ∀ x ∈ deleteSession store sid, x.id ≠ sid) := by
  refine ⟨rfl, ?_, ?_⟩
  · intro h
    simp [deleteSessionRoute, h]
  · intro s hs
    refine ⟨by simp [deleteSessionRoute, hs], ?_⟩
    intro x hx
    have := List.mem_filter.mp hx
    exact of_decide_eq_true this.2

/-- Witness for C9 at a concrete store: a caller `"u2"` deleting the session
owned by `"u1"` succeeds. -/
theorem deleteSessionRoute_no_ownership_check_witness :
    deleteSessionRoute [⟨"s1", "u1", 0⟩] "u2" "s1" =
      (none, deleteSession [⟨"s1", "u1", 0⟩] "s1") ∧
    (∀ x ∈ deleteSession [(⟨"s1", "u1", 0⟩ : Session)] "s1", x.id ≠ "s1") := by
  exact (deleteSessionRoute_no_ownership_check [⟨"s1", "u1", 0⟩] "u2" "u3" "s1").2.2
    ⟨"s1", "u1", 0⟩ (by decide)

/-! ### C4: missing Authorization header -/

/-- C4 counterexample: with the `Authorization` header absent (and likewise
empty), `authMiddleware` answers `InvalidToken`, which is a different error
constant than `MissingAuthHeader` — refuting the claim that the failure is
`MissingAuthHeader`. -/
theorem missing_header_yields_InvalidToken :
    (authMiddleware (fun _ => none) none [⟨"s1", "u1", 0⟩] 0).1 =
      .err .InvalidToken ∧
    (authMiddleware (fun _ => none) (some []) [⟨"s1", "u1", 0⟩] 0).1 =
      .err .InvalidToken ∧
    ApiError.InvalidToken ≠ ApiError.MissingAuthHeader := by
  refine ⟨rfl, rfl, by decide⟩

/-- C4 (amended): for every request whose `Authorization` header is absent or
empty, `authMiddleware` fails with the `InvalidToken` error (and no other
error code), without touching the session store. -/
theorem missing_header_rejected
    (validateToken : Token → Option TokenPayload)
    (header : Option Token) (store : SessionStore) (now : Int)
    (h : header = none ∨ header = some []) :
    authMiddleware validateToken header store now = (.err .InvalidToken, store) := by
  rcases h with h | h <;> subst h <;> simp [authMiddleware]

/-- Witness for C4 (amended) at concrete inputs. -/
theorem missing_header_rejected_witness :
    authMiddleware (fun _ => none) none [⟨"s1", "u1", 0⟩] 5 =
      (.err .InvalidToken, [⟨"s1", "u1", 0⟩]) ∧
    authMiddleware (fun _ => none) (some []) [⟨"s1", "u1", 0⟩] 5 =
      (.err .InvalidToken, [⟨"s1", "u1", 0⟩]) :=
  ⟨missing_header_rejected (fun _ => none) none [⟨"s1", "u1", 0⟩] 5 (.inl rfl),
   missing_header_rejected (fun _ => none) (some []) [⟨"s1", "u1", 0⟩] 5 (.inr rfl)⟩

/-! ### C1: respond/cancel look the request up by one side only -/

/-- C1: the PATCH handler filters only on `fromUserId` and the DELETE handler
only on `toUserId`, never restricting the other side to the authenticated
caller.  At a state whose only request goes from `"A"` to `"W"`, caller
`"C"` responding to `:userId = "A"` succeeds (instead of failing
`RequestNotFound`), deletes the `A→W` row, and — accepting — even makes
`"A"` and `"C"` friends; symmetrically, at a state whose only request goes
from `"W"` to `"A"`, caller `"C"` cancelling `:userId = "A"` succeeds and
deletes the `W→A` row it never sent. -/
theorem respond_cancel_ignore_other_side :
    (respondRequest
        ⟨[⟨"A", "alice", []⟩, ⟨"W", "wendy", []⟩, ⟨"C", "carol", []⟩],
         [⟨"r1", "FRIEND_REQUEST", "A", "W"⟩]⟩ "C" "A" true).error? = none ∧
    (respondRequest
        ⟨[⟨"A", "alice", []⟩, ⟨"W", "wendy", []⟩, ⟨"C", "carol", []⟩],
         [⟨"r1", "FRIEND_REQUEST", "A", "W"⟩]⟩ "C" "A" true).db.requests = [] ∧
    (respondRequest
        ⟨[⟨"A", "alice", []⟩, ⟨"W", "wendy", []⟩, ⟨"C", "carol", []⟩],
         [⟨"r1", "FRIEND_REQUEST", "A", "W"⟩]⟩ "C" "A" true).db.users =
      [⟨"A", "alice", ["C"]⟩, ⟨"W", "wendy", []⟩, ⟨"C", "carol", ["A"]⟩] ∧
    (cancelRequest
        ⟨[⟨"A", "alice", []⟩, ⟨"W", "wendy", []⟩, ⟨"C", "carol", []⟩],
         [⟨"r2", "FRIEND_REQUEST", "W", "A"⟩]⟩ "C" "A").error? = none ∧
    (cancelRequest
        ⟨[⟨"A", "alice", []⟩, ⟨"W", "wendy", []⟩, ⟨"C", "carol", []⟩],
         [⟨"r2", "FRIEND_REQUEST", "W", "A"⟩]⟩ "C" "A").db.requests = [] := by
  refine ⟨rfl, by decide, by decide, rfl, by decide⟩

/-! ### C10: ignoring a request leaves friend lists untouched -/

/-- C10: when the PATCH handler finds a request and `accept` is `false`, the
users table is returned exactly unchanged, the only state change is the
deletion of the found request row, and the emitted events are exactly the
two `REQUEST_DELETE`s — no `FRIEND_CREATE`. -/
theorem respond_ignore_frame
    (db : DB) (authUserId userId : String) (r : FriendRequest)
    (hr : db.requests.find? (fun x => x.fromUserId = userId) = some r) :
    (respondRequest db authUserId userId false).error? = none ∧
    (respondRequest db authUserId userId false).db.users = db.users ∧
    (respondRequest db authUserId userId false).db.requests =
      db.requests.filter (fun x => x.id ≠ r.id) ∧
    (respondRequest db authUserId userId false).events =
      [.REQUEST_DELETE authUserId userId authUserId .INCOMING,
       .REQUEST_DELETE userId userId authUserId .OUTGOING] := by
  simp [respondRequest, hr, deleteRequest]

/-- Witness for C10: ignoring the pending request from `"A"` to `"B"`. -/
theorem respond_ignore_frame_witness :
    (respondRequest ⟨[⟨"A", "alice", []⟩, ⟨"B", "bob", []⟩],
        [⟨"r1", "FRIEND_REQUEST", "A", "B"⟩]⟩ "B" "A" false).db.users =
      [⟨"A", "alice", []⟩, ⟨"B", "bob", []⟩] ∧
    (respondRequest ⟨[⟨"A", "alice", []⟩, ⟨"B", "bob", []⟩],
        [⟨"r1", "FRIEND_REQUEST", "A", "B"⟩]⟩ "B" "A" false).events =
      [.REQUEST_DELETE "B" "A" "B" .INCOMING,
       .REQUEST_DELETE "A" "A" "B" .OUTGOING] := by
  have h := respond_ignore_frame
    ⟨[⟨"A", "alice", []⟩, ⟨"B", "bob", []⟩],
     [⟨"r1", "FRIEND_REQUEST", "A", "B"⟩]⟩ "B" "A"
    ⟨"r1", "FRIEND_REQUEST", "A", "B"⟩ (by decide)
  exact ⟨h.2.1, h.2.2.2⟩

/-! ### C3: accepting a request forms a symmetric friendship -/

/-- C3: if the request the PATCH handler finds for `:userId = a` is the
pending request `r` from `a` to the authenticated caller `b` (with both
user rows present and `a ≠ b`), then accepting succeeds, the request row is
gone, `a`'s friend list contains `b`, `b`'s friend list contains `a`, and
exactly four events are emitted: two `REQUEST_DELETE` (one per party,
labeled with that party's direction) and two `FRIEND_CREATE` (one per
party). -/
theorem respond_accept_symmetric
    (db : DB) (a b : String) (r : FriendRequest) (ua ub : User)
    (hr : db.requests.find? (fun x => x.fromUserId = a) = some r)
    (hto : r.toUserId = b)
    (hua : db.users.find? (fun u => u.id = a) = some ua)
    (hub : db.users.find? (fun u => u.id = b) = some ub)
    (hab : a ≠ b) :
    (respondRequest db b a true).error? = none ∧
    (∀ x ∈ (respondRequest db b a true).db.requests, x.id ≠ r.id) ∧
    (∃ u, (respondRequest db b a true).db.users.find? (fun u0 => u0.id = a) =
        some u ∧ b ∈ u.friends) ∧
    (∃ u, (respondRequest db b a true).db.users.find? (fun u0 => u0.id = b) =
        some u ∧ a ∈ u.friends) ∧
    (respondRequest db b a true).events =
      [.REQUEST_DELETE b a b .INCOMING,
       .REQUEST_DELETE a a b .OUTGOING,
       .FRIEND_CREATE b a,
       .FRIEND_CREATE a b] := by
  have haid : ua.id = a := by simpa using List.find?_some hua
  have hbid : ub.id = b := by simpa using List.find?_some hub
  have husers : (respondRequest db b a true).db.users =
      (db.users.map (fun u =>
          if u.id = a then { u with friends := u.friends.insert b } else u)).map
        (fun u =>
          if u.id = b then { u with friends := u.friends.insert a } else u) := by
    simp [respondRequest, hr, connectFriend, deleteRequest]
  have hreqs : (respondRequest db b a true).db.requests =
      db.requests.filter (fun x => x.id ≠ r.id) := by
    simp [respondRequest, hr, connectFriend, deleteRequest]
  refine ⟨by simp [respondRequest, hr], ?_, ?_, ?_, by simp [respondRequest, hr]⟩
  · intro x hx
    rw [hreqs] at hx
    exact of_decide_eq_true (List.mem_filter.mp hx).2
  · rw [husers]
    rw [find?_map_pres _ _ _ (fun x => by split <;> simp),
        find?_map_pres _ _ _ (fun x => by split <;> simp), hua]
    refine ⟨_, rfl, ?_⟩
    have h2 : ¬ (ua.id = b) := fun h => hab (haid ▸ h)
    simp [haid, h2, hab]
  · rw [husers]
    rw [find?_map_pres _ _ _ (fun x => by split <;> simp),
        find?_map_pres _ _ _ (fun x => by split <;> simp), hub]
    refine ⟨_, rfl, ?_⟩
    have h2 : ¬ (ub.id = a) := fun h => hab (hbid ▸ h).symm
    have hba : b ≠ a := fun h => hab h.symm
    simp [hbid, h2, hba]

/-- Witness for C3: `"B"` accepts the pending request from `"A"`. -/
theorem respond_accept_symmetric_witness :
    (respondRequest ⟨[⟨"A", "alice", []⟩, ⟨"B", "bob", []⟩],
        [⟨"r1", "FRIEND_REQUEST", "A", "B"⟩]⟩ "B" "A" true).error? = none ∧
    (respondRequest ⟨[⟨"A", "alice", []⟩, ⟨"B", "bob", []⟩],
        [⟨"r1", "FRIEND_REQUEST", "A", "B"⟩]⟩ "B" "A" true).events =
      [.REQUEST_DELETE "B" "A" "B" .INCOMING,
       .REQUEST_DELETE "A" "A" "B" .OUTGOING,
       .FRIEND_CREATE "B" "A",
       .FRIEND_CREATE "A" "B"] := by
  have h := respond_accept_symmetric
    ⟨[⟨"A", "alice", []⟩, ⟨"B", "bob", []⟩],
     [⟨"r1", "FRIEND_REQUEST", "A", "B"⟩]⟩ "A" "B"
    ⟨"r1", "FRIEND_REQUEST", "A", "B"⟩ ⟨"A", "alice", []⟩ ⟨"B", "bob", []⟩
    (by decide) rfl (by decide) (by decide) (by decide)
  exact ⟨h.1, h.2.2.2.2⟩

/-! ### C2: direction-insensitive uniqueness of friend requests -/

/-- C2: with users `A` and `B` distinct (and username lookups resolving to
them), (i) in any state already holding a request between them in either
direction, both `createRequest(A → B)` and `createRequest(B → A)` fail with
`RequestAlreadySent`, inserting nothing; (ii) after a successful
`createRequest(A → B)`, the call `createRequest(B → A)` fails with
`RequestAlreadySent`, inserting nothing. -/
theorem createRequest_unordered_unique
    (db : DB) (A B : User) (n1 n2 : String)
    (hA : db.users.find? (fun u => u.username = A.username) = some A)
    (hB : db.users.find? (fun u => u.username = B.username) = some B)
    (hne : A.id ≠ B.id) :
    ((∃ r ∈ db.requests,
        (r.fromUserId = A.id ∧ r.toUserId = B.id) ∨
        (r.fromUserId = B.id ∧ r.toUserId = A.id)) →
      createRequest db A.id B.username n1 = ⟨some .RequestAlreadySent, db, []⟩ ∧
      createRequest db B.id A.username n2 = ⟨some .RequestAlreadySent, db, []⟩) ∧
    ((createRequest db A.id B.username n1).error? = none →
      createRequest (createRequest db A.id B.username n1).db B.id A.username n2 =
        ⟨some .RequestAlreadySent, (createRequest db A.id B.username n1).db, []⟩) := by
  have hBA : ¬ (B.id = A.id) := fun h => hne h.symm
  have hAB : ¬ (A.id = B.id) := hne
  constructor
  · rintro ⟨r, hrmem, hrdir⟩
    constructor
    · have hfind : db.requests.find? (fun x =>
          (x.fromUserId = A.id ∧ x.toUserId = B.id) ∨
          (x.fromUserId = B.id ∧ x.toUserId = A.id)) ≠ none := by
        intro hnone
        exact (List.find?_eq_none.mp hnone r hrmem) (by simpa using hrdir)
      obtain ⟨q, hq⟩ := Option.ne_none_iff_exists'.mp hfind
      simp only [createRequest, hB]
      rw [if_neg hBA, hq]
    · have hfind : db.requests.find? (fun x =>
          (x.fromUserId = B.id ∧ x.toUserId = A.id) ∨
          (x.fromUserId = A.id ∧ x.toUserId = B.id)) ≠ none := by
        intro hnone
        refine (List.find?_eq_none.mp hnone r hrmem) ?_
        simp only [decide_eq_true_eq]
        exact hrdir.symm
      obtain ⟨q, hq⟩ := Option.ne_none_iff_exists'.mp hfind
      simp only [createRequest, hA]
      rw [if_neg hAB, hq]
  · intro hok
    have hsuccess : db.requests.find? (fun x =>
        (x.fromUserId = A.id ∧ x.toUserId = B.id) ∨
        (x.fromUserId = B.id ∧ x.toUserId = A.id)) = none := by
      by_contra hne2
      obtain ⟨q, hq⟩ := Option.ne_none_iff_exists'.mp hne2
      simp only [createRequest, hB] at hok
      rw [if_neg hBA, hq] at hok
      exact Option.noConfusion hok
    have hdb1 : (createRequest db A.id B.username n1).db =
        { db with requests :=
            db.requests ++ [⟨n1, "FRIEND_REQUEST", A.id, B.id⟩] } := by
      simp only [createRequest, hB]
      rw [if_neg hBA, hsuccess]
    rw [hdb1]
    have hfind : (db.requests ++ [(⟨n1, "FRIEND_REQUEST", A.id, B.id⟩ : FriendRequest)]).find?
        (fun x =>
          (x.fromUserId = B.id ∧ x.toUserId = A.id) ∨
          (x.fromUserId = A.id ∧ x.toUserId = B.id)) ≠ none := by
      intro hnone
      have hmem : (⟨n1, "FRIEND_REQUEST", A.id, B.id⟩ : FriendRequest) ∈
          db.requests ++ [(⟨n1, "FRIEND_REQUEST", A.id, B.id⟩ : FriendRequest)] := by
        simp
      refine (List.find?_eq_none.mp hnone _ hmem) ?_
      simp
    obtain ⟨q, hq⟩ := Option.ne_none_iff_exists'.mp hfind
    simp only [createRequest, hA]
    rw [if_neg hAB, hq]

/-- Witness for C2: users `"alice"` and `"bob"`, a pending `A→B` request in
state; both follow-up sends fail `RequestAlreadySent`, and a send into the
empty-request state followed by the mirrored send also fails. -/
theorem createRequest_unordered_unique_witness :
    (createRequest
        ⟨[⟨"A", "alice", []⟩, ⟨"B", "bob", []⟩],
         [⟨"r0", "FRIEND_REQUEST", "A", "B"⟩]⟩ "A" "bob" "n1" =
      ⟨some .RequestAlreadySent,
        ⟨[⟨"A", "alice", []⟩, ⟨"B", "bob", []⟩],
         [⟨"r0", "FRIEND_REQUEST", "A", "B"⟩]⟩, []⟩ ∧
      createRequest
        ⟨[⟨"A", "alice", []⟩, ⟨"B", "bob", []⟩],
         [⟨"r0", "FRIEND_REQUEST", "A", "B"⟩]⟩ "B" "alice" "n2" =
      ⟨some .RequestAlreadySent,
        ⟨[⟨"A", "alice", []⟩, ⟨"B", "bob", []⟩],
         [⟨"r0", "FRIEND_REQUEST", "A", "B"⟩]⟩, []⟩) ∧
    createRequest
        (createRequest ⟨[⟨"A", "alice", []⟩, ⟨"B", "bob", []⟩], []⟩
          "A" "bob" "n1").db "B" "alice" "n2" =
      ⟨some .RequestAlreadySent,
        (createRequest ⟨[⟨"A", "alice", []⟩, ⟨"B", "bob", []⟩], []⟩
          "A" "bob" "n1").db, []⟩ := by
  constructor
  · exact (createRequest_unordered_unique
      ⟨[⟨"A", "alice", []⟩, ⟨"B", "bob", []⟩],
       [⟨"r0", "FRIEND_REQUEST", "A", "B"⟩]⟩
      ⟨"A", "alice", []⟩ ⟨"B", "bob", []⟩ "n1" "n2"
      (by decide) (by decide) (by decide)).1
      ⟨⟨"r0", "FRIEND_REQUEST", "A", "B"⟩, by decide, by decide⟩
  · exact (createRequest_unordered_unique
      ⟨[⟨"A", "alice", []⟩, ⟨"B", "bob", []⟩], []⟩
      ⟨"A", "alice", []⟩ ⟨"B", "bob", []⟩ "n1" "n2"
      (by decide) (by decide) (by decide)).2 (by decide)

/-! ### C8: unfriend fails cleanly and idempotently -/

/-- C8: `unfriend` fails with `FriendNotFound`, removing nothing, whenever
either user row is absent or the friendship edge is not present on both
sides; and after a successful `unfriend`, repeating the same call fails
with `FriendNotFound` on the new state (idempotent failure). -/
theorem unfriend_failure_idempotent
    (db : DB) (a b : String) :
    ((db.users.find? (fun x => x.id = a) = none ∨
      db.users.find? (fun x => x.id = b) = none) →
      unfriend db a b = ⟨some .FriendNotFound, db, []⟩) ∧
    (∀ u f, db.users.find? (fun x => x.id = a) = some u →
      db.users.find? (fun x => x.id = b) = some f →
      ¬ (b ∈ u.friends ∧ a ∈ f.friends) →
      unfriend db a b = ⟨some .FriendNotFound, db, []⟩) ∧
    (∀ u f, db.users.find? (fun x => x.id = a) = some u →
      db.users.find? (fun x => x.id = b) = some f →
      b ∈ u.friends → a ∈ f.friends →
      (unfriend db a b).error? = none ∧
      unfriend (unfriend db a b).db a b =
        ⟨some .FriendNotFound, (unfriend db a b).db, []⟩) := by
  refine ⟨?_, ?_, ?_⟩
  · rintro (h | h)
    · simp only [unfriend, h]
    · cases hfa : db.users.find? (fun x => x.id = a) with
      | none => simp only [unfriend, hfa]
      | some u => simp only [unfriend, hfa, h]
  · intro u f hu hf hcond
    simp only [unfriend, hu, hf]
    rw [if_neg hcond]
  · intro u f hu hf hbu haf
    have hres : unfriend db a b =
        ⟨none, disconnectFriend (disconnectFriend db a b) b a,
         [.FRIEND_DELETE a b, .FRIEND_DELETE b a]⟩ := by
      simp only [unfriend, hu, hf]
      rw [if_pos ⟨hbu, haf⟩]
    refine ⟨by rw [hres], ?_⟩
    have huid : u.id = a := by simpa using List.find?_some hu
    have hfid : f.id = b := by simpa using List.find?_some hf
    have hp1 : ∀ (x : User),
        (decide ((if x.id = a then
            { x with friends := x.friends.filter (fun y => y ≠ b) }
          else x).id = a)) = decide (x.id = a) := by
      intro x
      split <;> simp
    have hp2 : ∀ (x : User),
        (decide ((if x.id = b then
            { x with friends := x.friends.filter (fun y => y ≠ a) }
          else x).id = a)) = decide (x.id = a) := by
      intro x
      split <;> simp_all
    have hq1 : ∀ (x : User),
        (decide ((if x.id = a then
            { x with friends := x.friends.filter (fun y => y ≠ b) }
          else x).id = b)) = decide (x.id = b) := by
      intro x
      split <;> simp_all
    have hq2 : ∀ (x : User),
        (decide ((if x.id = b then
            { x with friends := x.friends.filter (fun y => y ≠ a) }
          else x).id = b)) = decide (x.id = b) := by
      intro x
      split <;> simp
    have husers : (unfriend db a b).db.users =
        (db.users.map (fun x =>
          if x.id = a then { x with friends := x.friends.filter (fun y => y ≠ b) }
          else x)).map (fun x =>
          if x.id = b then { x with friends := x.friends.filter (fun y => y ≠ a) }
          else x) := by
      rw [hres]
      rfl
    have hfind_a : (unfriend db a b).db.users.find? (fun x => x.id = a) =
        some ((fun x =>
          if x.id = b then { x with friends := x.friends.filter (fun y => y ≠ a) }
          else x) ((fun x =>
          if x.id = a then { x with friends := x.friends.filter (fun y => y ≠ b) }
          else x) u)) := by
      rw [husers, find?_map_pres _ _ _ hp2, find?_map_pres _ _ _ hp1, hu]
      rfl
    have hfind_b : (unfriend db a b).db.users.find? (fun x => x.id = b) =
        some ((fun x =>
          if x.id = b then { x with friends := x.friends.filter (fun y => y ≠ a) }
          else x) ((fun x =>
          if x.id = a then { x with friends := x.friends.filter (fun y => y ≠ b) }
          else x) f)) := by
      rw [husers, find?_map_pres _ _ _ hq2, find?_map_pres _ _ _ hq1, hf]
      rfl
    have hnotin : b ∉ ((fun x =>
        if x.id = b then { x with friends := x.friends.filter (fun y => y ≠ a) }
        else x) ((fun x =>
        if x.id = a then { x with friends := x.friends.filter (fun y => y ≠ b) }
        else x) u)).friends := by
      intro hmem
      simp only [if_pos huid] at hmem
      by_cases h2 : ({ u with friends := u.friends.filter (fun y => y ≠ b) } : User).id = b
      · rw [if_pos h2] at hmem
        have := (List.mem_filter.mp hmem).1
        have := (List.mem_filter.mp this).2
        simp at this
      · rw [if_neg h2] at hmem
        have := (List.mem_filter.mp hmem).2
        simp at this
    set D := (unfriend db a b).db with hD
    simp only [unfriend, hfind_a, hfind_b]
    rw [if_neg (fun hc => hnotin hc.1)]

/-- Witness for C8: users `"A"` and `"B"` friends both ways; a first
`unfriend` succeeds and the repeat fails `FriendNotFound`; and with no edge
at all `unfriend` fails `FriendNotFound`. -/
theorem unfriend_failure_idempotent_witness :
    (unfriend ⟨[⟨"A", "alice", ["B"]⟩, ⟨"B", "bob", ["A"]⟩], []⟩
        "A" "B").error? = none ∧
    unfriend (unfriend ⟨[⟨"A", "alice", ["B"]⟩, ⟨"B", "bob", ["A"]⟩], []⟩
        "A" "B").db "A" "B" =
      ⟨some .FriendNotFound,
        (unfriend ⟨[⟨"A", "alice", ["B"]⟩, ⟨"B", "bob", ["A"]⟩], []⟩ "A" "B").db,
        []⟩ ∧
    unfriend ⟨[⟨"A", "alice", []⟩, ⟨"B", "bob", []⟩], []⟩ "A" "B" =
      ⟨some .FriendNotFound, ⟨[⟨"A", "alice", []⟩, ⟨"B", "bob", []⟩], []⟩, []⟩ := by
  have h := (unfriend_failure_idempotent
    ⟨[⟨"A", "alice", ["B"]⟩, ⟨"B", "bob", ["A"]⟩], []⟩ "A" "B").2.2
    ⟨"A", "alice", ["B"]⟩ ⟨"B", "bob", ["A"]⟩
    (by decide) (by decide) (by decide) (by decide)
  have h2 := (unfriend_failure_idempotent
    ⟨[⟨"A", "alice", []⟩, ⟨"B", "bob", []⟩], []⟩ "A" "B").2.1
    ⟨"A", "alice", []⟩ ⟨"B", "bob", []⟩
    (by decide) (by decide) (by decide)
  exact ⟨h.1, h.2, h2⟩

/-! ### C5: session idle expiry is lazy -/

/-- C5: given a `Bearer` header whose token verifies to `payload` and whose
session row `s` exists: if `lastUse` is more than 14 days before `now`,
`authMiddleware` fails `ExpiredToken` and the session is deleted from the
store (no row with that id remains); if `lastUse` is within 14 days,
authentication succeeds and the session survives with `lastUse` bumped to
`now`. -/
theorem authMiddleware_idle_expiry
    (validateToken : Token → Option TokenPayload) (hdr t : Token)
    (store : SessionStore) (now : Int) (payload : TokenPayload) (s : Session)
    (hsplit : jsSplit hdr = [bearerWord, t]) (ht : t ≠ [])
    (hv : validateToken t = some payload)
    (hs : findSession store payload.sessionId = some s) :
    (s.lastUse < now - fourteenDays →
      authMiddleware validateToken (some hdr) store now =
        (.err .ExpiredToken, deleteSession store payload.sessionId) ∧
      ∀ x ∈ deleteSession store payload.sessionId, x.id ≠ payload.sessionId) ∧
    (¬ s.lastUse < now - fourteenDays →
      authMiddleware validateToken (some hdr) store now =
        (.ok s.id s.userId, touchSession store payload.sessionId now) ∧
      findSession (touchSession store payload.sessionId now) payload.sessionId =
        some { s with lastUse := now }) := by
  have hhdr : hdr ≠ [] := by
    intro h
    rw [h] at hsplit
    simp [jsSplit, splitSp, bearerWord] at hsplit
  have hbw : ¬ (bearerWord = [] ∨ t = []) := by
    rintro (h | h)
    · simp [bearerWord] at h
    · exact ht h
  have hbw2 : ¬ (bearerWord ≠ bearerWord) := fun h => h rfl
  have hbase : ∀ (k : AuthOutcome × SessionStore),
      (match validateToken t with
        | none => (AuthOutcome.err ApiError.InvalidToken, store)
        | some payload =>
          match findSession store payload.sessionId with
          | none => (AuthOutcome.err ApiError.ExpiredToken, store)
          | some session =>
            if session.lastUse < now - fourteenDays then
              (AuthOutcome.err ApiError.ExpiredToken,
                deleteSession store payload.sessionId)
            else
              (AuthOutcome.ok session.id session.userId,
                touchSession store payload.sessionId now)) = k →
      authMiddleware validateToken (some hdr) store now = k := by
    intro k hk
    simp only [authMiddleware, if_neg hhdr, hsplit]
    rw [if_neg hbw, if_neg hbw2]
    exact hk
  constructor
  · intro hold
    refine ⟨hbase _ ?_, ?_⟩
    · simp only [hv, hs]
      rw [if_pos hold]
    · intro x hx
      exact of_decide_eq_true (List.mem_filter.mp hx).2
  · intro hfresh
    have hsid : s.id = payload.sessionId := by simpa using List.find?_some hs
    refine ⟨hbase _ ?_, ?_⟩
    · simp only [hv, hs]
      rw [if_neg hfresh]
    · unfold findSession touchSession
      rw [find?_map_pres _ _ _ (fun x => by split <;> simp_all),
          findSession] at *
      rw [hs]
      simp [hsid]

/-- Witness for C5: a session last used at time `0`; at `now` 15 days later
authentication expires and deletes it, at `now` 13 days later it succeeds
and bumps `lastUse`. -/
theorem authMiddleware_idle_expiry_witness :
    (authMiddleware
        (fun x => if x = ['a'] then some ⟨"s1", "u1"⟩ else none)
        (some (bearerHeader ['a'])) [⟨"s1", "u1", 0⟩]
        (15 * 24 * 60 * 60 * 1000) =
      (.err .ExpiredToken, []) ∧
      ∀ x ∈ ([] : SessionStore), x.id ≠ "s1") ∧
    (authMiddleware
        (fun x => if x = ['a'] then some ⟨"s1", "u1"⟩ else none)
        (some (bearerHeader ['a'])) [⟨"s1", "u1", 0⟩]
        (13 * 24 * 60 * 60 * 1000) =
      (.ok "s1" "u1", [⟨"s1", "u1", 13 * 24 * 60 * 60 * 1000⟩]) ∧
      findSession [⟨"s1", "u1", 13 * 24 * 60 * 60 * 1000⟩] "s1" =
        some ⟨"s1", "u1", 13 * 24 * 60 * 60 * 1000⟩) := by
  constructor
  · have h := (authMiddleware_idle_expiry
      (fun x => if x = ['a'] then some ⟨"s1", "u1"⟩ else none)
      (bearerHeader ['a']) ['a'] [⟨"s1", "u1", 0⟩]
      (15 * 24 * 60 * 60 * 1000) ⟨"s1", "u1"⟩ ⟨"s1", "u1", 0⟩
      (by decide) (by decide) (by decide) (by decide)).1 (by decide)
    exact h
  · have h := (authMiddleware_idle_expiry
      (fun x => if x = ['a'] then some ⟨"s1", "u1"⟩ else none)
      (bearerHeader ['a']) ['a'] [⟨"s1", "u1", 0⟩]
      (13 * 24 * 60 * 60 * 1000) ⟨"s1", "u1"⟩ ⟨"s1", "u1", 0⟩
      (by decide) (by decide) (by decide) (by decide)).2 (by decide)
    exact h

/-! ### C6: HTTP middleware and relay VERIFY_TOKEN behave identically -/

/-- C6: for every token (space-free and non-empty, as every JWT is) and
every session store, the HTTP middleware — fed the token in a `Bearer`
header — and the relay `VERIFY_TOKEN` handler — fed the raw token — leave
the session store in the same resulting state, and their outcomes
correspond: the middleware succeeds exactly when the RPC replies
`valid: true` (reporting the same owning user id), and fails exactly when
the RPC replies `valid: false, userId: null`. -/
theorem authMiddleware_verifyTokenRPC_equiv
    (validateToken : Token → Option TokenPayload) (t : Token)
    (store : SessionStore) (now : Int)
    (hsp : ' ' ∉ t) (ht : t ≠ []) :
    (authMiddleware validateToken (some (bearerHeader t)) store now).2 =
      (verifyTokenRPC validateToken t store now).2 ∧
    ((∃ sid uid,
        (authMiddleware validateToken (some (bearerHeader t)) store now).1 =
          .ok sid uid ∧
        (verifyTokenRPC validateToken t store now).1 = ⟨true, some uid⟩) ∨
      ((∃ e, (authMiddleware validateToken (some (bearerHeader t)) store now).1 =
          .err e) ∧
        (verifyTokenRPC validateToken t store now).1 = ⟨false, none⟩)) := by
  have hsplit := jsSplit_bearerHeader t hsp
  have hhdr : bearerHeader t ≠ [] := by simp [bearerHeader, bearerWord]
  have hbw : ¬ (bearerWord = [] ∨ t = []) := by
    rintro (h | h)
    · simp [bearerWord] at h
    · exact ht h
  have hm : authMiddleware validateToken (some (bearerHeader t)) store now =
      (match validateToken t with
        | none => (AuthOutcome.err ApiError.InvalidToken, store)
        | some payload =>
          match findSession store payload.sessionId with
          | none => (AuthOutcome.err ApiError.ExpiredToken, store)
          | some session =>
            if session.lastUse < now - fourteenDays then
              (AuthOutcome.err ApiError.ExpiredToken,
                deleteSession store payload.sessionId)
            else
              (AuthOutcome.ok session.id session.userId,
                touchSession store payload.sessionId now)) := by
    simp only [authMiddleware, if_neg hhdr, hsplit]
    rw [if_neg hbw, if_neg (fun h => h rfl)]
  cases hv : validateToken t with
  | none =>
    have h1 : authMiddleware validateToken (some (bearerHeader t)) store now =
        (.err .InvalidToken, store) := by
      rw [hm]
      simp only [hv]
    have h2 : verifyTokenRPC validateToken t store now = (⟨false, none⟩, store) := by
      simp only [verifyTokenRPC, hv]
    rw [h1, h2]
    exact ⟨rfl, .inr ⟨⟨.InvalidToken, rfl⟩, rfl⟩⟩
  | some p =>
    cases hf : findSession store p.sessionId with
    | none =>
      have h1 : authMiddleware validateToken (some (bearerHeader t)) store now =
          (.err .ExpiredToken, store) := by
        rw [hm]
        simp only [hv, hf]
      have h2 : verifyTokenRPC validateToken t store now = (⟨false, none⟩, store) := by
        simp only [verifyTokenRPC, hv, hf]
      rw [h1, h2]
      exact ⟨rfl, .inr ⟨⟨.ExpiredToken, rfl⟩, rfl⟩⟩
    | some s =>
      by_cases hst : s.lastUse < now - fourteenDays
      · have h1 : authMiddleware validateToken (some (bearerHeader t)) store now =
            (.err .ExpiredToken, deleteSession store p.sessionId) := by
          rw [hm]
          simp only [hv, hf]
          rw [if_pos hst]
        have h2 : verifyTokenRPC validateToken t store now =
            (⟨false, none⟩, deleteSession store p.sessionId) := by
          simp only [verifyTokenRPC, hv, hf]
          rw [if_pos hst]
        rw [h1, h2]
        exact ⟨rfl, .inr ⟨⟨.ExpiredToken, rfl⟩, rfl⟩⟩
      · have h1 : authMiddleware validateToken (some (bearerHeader t)) store now =
            (.ok s.id s.userId, touchSession store p.sessionId now) := by
          rw [hm]
          simp only [hv, hf]
          rw [if_neg hst]
        have h2 : verifyTokenRPC validateToken t store now =
            (⟨true, some s.userId⟩, touchSession store p.sessionId now) := by
          simp only [verifyTokenRPC, hv, hf]
          rw [if_neg hst]
        rw [h1, h2]
        exact ⟨rfl, .inl ⟨s.id, s.userId, rfl, rfl⟩⟩

/-- Witness for C6 at a concrete token, store and clock. -/
theorem authMiddleware_verifyTokenRPC_equiv_witness :
    (authMiddleware (fun x => if x = ['a'] then some ⟨"s1", "u1"⟩ else none)
        (some (bearerHeader ['a'])) [⟨"s1", "u1", 3⟩] 4).2 =
      (verifyTokenRPC (fun x => if x = ['a'] then some ⟨"s1", "u1"⟩ else none)
        ['a'] [⟨"s1", "u1", 3⟩] 4).2 ∧
    ((∃ sid uid,
        (authMiddleware (fun x => if x = ['a'] then some ⟨"s1", "u1"⟩ else none)
          (some (bearerHeader ['a'])) [⟨"s1", "u1", 3⟩] 4).1 = .ok sid uid ∧
        (verifyTokenRPC (fun x => if x = ['a'] then some ⟨"s1", "u1"⟩ else none)
          ['a'] [⟨"s1", "u1", 3⟩] 4).1 = ⟨true, some uid⟩) ∨
      ((∃ e,
        (authMiddleware (fun x => if x = ['a'] then some ⟨"s1", "u1"⟩ else none)
          (some (bearerHeader ['a'])) [⟨"s1", "u1", 3⟩] 4).1 = .err e) ∧
        (verifyTokenRPC (fun x => if x = ['a'] then some ⟨"s1", "u1"⟩ else none)
          ['a'] [⟨"s1", "u1", 3⟩] 4).1 = ⟨false, none⟩)) :=
  authMiddleware_verifyTokenRPC_equiv
    (fun x => if x = ['a'] then some ⟨"s1", "u1"⟩ else none)
    ['a'] [⟨"s1", "u1", 3⟩] 4 (by decide) (by decide)

end PygmyRest
